import Mathlib

set_option maxHeartbeats 1000000
set_option maxRecDepth 8000

/-!
Verification of the QR capability-token subsystem of the hellocare server
(src/services/qr.js and the QR routes in src/routes/reports.js).

Modelling conventions, shared by all definitions below:

* Timestamps are naturals counting milliseconds since the epoch.  The code
  only ever converts a `Date` to an ISO-8601 string and back and compares
  `Date`s numerically, so an ISO string is modelled by the decimal digits of
  its millisecond value (`isoOf`).
* Node's AES-256-GCM primitive is an external library, not repository code.
  It is modelled as an ideal authenticated cipher over character lists: the
  ciphertext is a reversible colon-free digit encoding of the plaintext and
  the authentication tag is a deterministic function of (key, iv, ciphertext)
  that determines the ciphertext, which is exactly the interface the
  repository's `encrypt`/`decrypt` rely on (random per-call IV, tag checked
  on decryption, any mismatch throws).  The wire layout `iv:authTag:ciphertext`
  and the split/format checks of `decrypt` are taken from the source.
* `JSON.stringify`/`JSON.parse` are JS builtins; they are modelled by a
  serializer producing the exact object layout built in `generateQRToken`
  and a parser for that grammar (string escaping of quote and backslash is
  modelled; control-character escapes do not occur in the fields used).
* The Firestore collections are modelled as association lists keyed by the
  document id; a lookup that throws (store unreachable) is modelled by the
  `StoreGetOutcome.failure` case threaded into `validateQRTokenWith`.
-/

namespace HC

/-- Decimal digit character, `n < 10` intended. -/
def digitChar (n : Nat) : Char :=
  match n with
  | 0 => '0' | 1 => '1' | 2 => '2' | 3 => '3' | 4 => '4'
  | 5 => '5' | 6 => '6' | 7 => '7' | 8 => '8' | _ => '9'

/-- Numeric value of a decimal digit character. -/
def digitVal (c : Char) : Option Nat :=
  if '0' ≤ c ∧ c ≤ '9' then some (c.toNat - 48) else none

theorem digitVal_digitChar (n : Nat) (h : n < 10) : digitVal (digitChar n) = some n := by
  interval_cases n <;> decide

theorem digitChar_ne (n : Nat) (h : n < 10) :
    digitChar n ≠ ':' ∧ digitChar n ≠ '"' ∧ digitChar n ≠ '\\' ∧ digitChar n ≠ ']' ∧
    digitChar n ≠ '[' ∧ digitChar n ≠ ',' := by
  interval_cases n <;> refine ⟨by decide, by decide, by decide, by decide, by decide, by decide⟩

/-- Little-endian decimal digits, structurally recursive on a fuel bound (the
fuel never runs out when it starts at the number itself). -/
def natDecRevAux : Nat → Nat → List Char
  | 0, n => [digitChar n]
  | fuel + 1, n => if n < 10 then [digitChar n] else digitChar (n % 10) :: natDecRevAux fuel (n / 10)

/-- Little-endian decimal digits of a natural number. -/
def natDecRev (n : Nat) : List Char := natDecRevAux n n

theorem natDecRevAux_congr : ∀ fuel fuel' n, n ≤ fuel → n ≤ fuel' →
    natDecRevAux fuel n = natDecRevAux fuel' n := by
  intro fuel
  induction fuel with
  | zero =>
    intro fuel' n h1 _
    obtain rfl : n = 0 := by omega
    cases fuel' with
    | zero => rfl
    | succ f' => simp [natDecRevAux]
  | succ f ih =>
    intro fuel' n h1 h2
    cases fuel' with
    | zero =>
      obtain rfl : n = 0 := by omega
      simp [natDecRevAux]
    | succ f' =>
      simp only [natDecRevAux]
      by_cases hn : n < 10
      · simp [hn]
      · simp only [if_neg hn]
        have hlt : n / 10 < n := Nat.div_lt_self (by omega) (by omega)
        rw [ih f' (n / 10) (by omega) (by omega)]

/-- The recursive unfolding of `natDecRev`. -/
theorem natDecRev_eq (n : Nat) : natDecRev n =
    if n < 10 then [digitChar n] else digitChar (n % 10) :: natDecRev (n / 10) := by
  unfold natDecRev
  by_cases hn : n < 10
  · rw [if_pos hn]
    cases n with
    | zero => rfl
    | succ m => simp [natDecRevAux, hn]
  · rw [if_neg hn]
    obtain ⟨f, rfl⟩ : ∃ f, n = f + 1 := ⟨n - 1, by omega⟩
    simp only [natDecRevAux, if_neg hn]
    have hlt : (f + 1) / 10 < f + 1 := Nat.div_lt_self (by omega) (by omega)
    rw [natDecRevAux_congr f ((f + 1) / 10) ((f + 1) / 10) (by omega) (by omega)]

/-- Big-endian decimal digit string of a natural number (model of printing a
number, and of `Date.toISOString` at the millisecond level). -/
def natDec (n : Nat) : List Char := (natDecRev n).reverse

/-- Big-endian decimal evaluator with accumulator. -/
def decValAux (acc : Nat) : List Char → Option Nat
  | [] => some acc
  | c :: cs =>
    match digitVal c with
    | some d => decValAux (acc * 10 + d) cs
    | none => none

/-- Value of a big-endian decimal digit string. -/
def decVal (l : List Char) : Option Nat := decValAux 0 l

theorem decValAux_append (l₁ l₂ : List Char) (acc m : Nat)
    (h : decValAux acc l₁ = some m) :
    decValAux acc (l₁ ++ l₂) = decValAux m l₂ := by
  induction l₁ generalizing acc with
  | nil =>
    simp only [decValAux] at h
    obtain rfl : acc = m := by injection h
    rfl
  | cons c cs ih =>
    simp only [decValAux, List.cons_append] at h ⊢
    cases hv : digitVal c with
    | none => rw [hv] at h; exact absurd h (by simp)
    | some d => rw [hv] at h; exact ih _ h

theorem natDecRev_ne_nil (n : Nat) : natDecRev n ≠ [] := by
  rw [natDecRev_eq]
  split <;> simp

theorem mem_natDecRev (n : Nat) : ∀ c ∈ natDecRev n, ∃ m, m < 10 ∧ c = digitChar m := by
  induction n using Nat.strong_induction_on with
  | _ n ih =>
    rw [natDecRev_eq]
    by_cases h : n < 10
    · rw [if_pos h]
      intro c hc
      simp at hc
      exact ⟨n, h, hc⟩
    · rw [if_neg h]
      intro c hc
      rcases List.mem_cons.mp hc with h1 | h2
      · exact ⟨n % 10, by omega, h1⟩
      · exact ih (n / 10) (Nat.div_lt_self (by omega) (by omega)) c h2

theorem mem_natDec (n : Nat) : ∀ c ∈ natDec n, ∃ m, m < 10 ∧ c = digitChar m := by
  intro c hc
  exact mem_natDecRev n c (List.mem_reverse.mp hc)

theorem decValAux_natDec (n : Nat) :
    ∀ acc, decValAux acc (natDec n) = some (acc * 10 ^ (natDec n).length + n) := by
  induction n using Nat.strong_induction_on with
  | _ n ih =>
    intro acc
    by_cases h : n < 10
    · have hrev : natDec n = [digitChar n] := by
        unfold natDec; rw [natDecRev_eq, if_pos h]; rfl
      rw [hrev]
      simp only [decValAux, digitVal_digitChar n h, List.length_cons, List.length_nil]
      norm_num
    · have hrev : natDec n = natDec (n / 10) ++ [digitChar (n % 10)] := by
        unfold natDec
        conv_lhs => rw [natDecRev_eq]
        rw [if_neg h, List.reverse_cons]
      rw [hrev]
      have h1 := ih (n / 10) (Nat.div_lt_self (by omega) (by omega)) acc
      rw [decValAux_append _ _ _ _ h1]
      simp only [decValAux, digitVal_digitChar (n % 10) (by omega)]
      congr 1
      have hp : (natDec (n / 10) ++ [digitChar (n % 10)]).length
          = (natDec (n / 10)).length + 1 := by simp
      rw [hp, pow_succ]
      have := Nat.div_add_mod n 10
      set L := (natDec (n / 10)).length
      nlinarith [this]

theorem decVal_natDec (n : Nat) : decVal (natDec n) = some n := by
  unfold decVal
  rw [decValAux_natDec n 0]
  norm_num

theorem set_ne_of_getElem_ne (l : List Char) (i : Nat) (c : Char) (h : i < l.length)
    (hc : c ≠ l[i]) : l.set i c ≠ l := by
  intro he
  have h1 : (l.set i c)[i]? = some c := by
    rw [List.getElem?_set_self']
    simp [h]
  rw [he, List.getElem?_eq_getElem h] at h1
  injection h1 with hh
  exact hc hh.symm

/-- Fixed-width (7 decimal digits) encoding of one character's code point; the
unit of the modelled ciphertext (every Unicode scalar value is below 10^7). -/
def charEnc (c : Char) : List Char :=
  [digitChar (c.toNat / 1000000 % 10), digitChar (c.toNat / 100000 % 10),
   digitChar (c.toNat / 10000 % 10), digitChar (c.toNat / 1000 % 10),
   digitChar (c.toNat / 100 % 10), digitChar (c.toNat / 10 % 10),
   digitChar (c.toNat % 10)]

/-- Reversible colon-free encoding of a character list: the model of the hex
ciphertext (and of the hex encodings inside the authentication tag). -/
def stringEncList : List Char → List Char
  | [] => []
  | c :: cs => charEnc c ++ stringEncList cs

/-- Inverse of `stringEncList`: decode 7-digit chunks back to characters.
Fails on any chunk that is not a valid scalar value, mirroring decryption
failure of a corrupted ciphertext. -/
def decodeChars : List Char → Option (List Char)
  | [] => some []
  | a :: b :: c :: d :: e :: f :: g :: rest =>
    match digitVal a, digitVal b, digitVal c, digitVal d, digitVal e, digitVal f, digitVal g with
    | some va, some vb, some vc, some vd, some ve, some vf, some vg =>
      let n := va * 1000000 + vb * 100000 + vc * 10000 + vd * 1000 + ve * 100 + vf * 10 + vg
      if _h : n.isValidChar then
        match decodeChars rest with
        | some tl => some (Char.ofNat n :: tl)
        | none => none
      else none
    | _, _, _, _, _, _, _ => none
  | _ => none

theorem char_toNat_lt (c : Char) : c.toNat < 1114112 := by
  have := c.valid
  simp only [Char.toNat]
  rcases this with h | h <;> omega

theorem decodeChars_stringEncList (l : List Char) : decodeChars (stringEncList l) = some l := by
  induction l with
  | nil => rfl
  | cons c cs ih =>
    have hlt : c.toNat < 10000000 := by have := char_toNat_lt c; omega
    show decodeChars (charEnc c ++ stringEncList cs) = _
    simp only [charEnc, List.cons_append, List.nil_append]
    rw [decodeChars]
    rw [digitVal_digitChar _ (by omega), digitVal_digitChar _ (by omega),
        digitVal_digitChar _ (by omega), digitVal_digitChar _ (by omega),
        digitVal_digitChar _ (by omega), digitVal_digitChar _ (by omega),
        digitVal_digitChar _ (by omega)]
    simp only
    have hn : c.toNat / 1000000 % 10 * 1000000 + c.toNat / 100000 % 10 * 100000 +
        c.toNat / 10000 % 10 * 10000 + c.toNat / 1000 % 10 * 1000 +
        c.toNat / 100 % 10 * 100 + c.toNat / 10 % 10 * 10 + c.toNat % 10 = c.toNat := by
      omega
    rw [hn, dif_pos (show c.toNat.isValidChar from c.valid), ih, Char.ofNat_toNat]

theorem mem_stringEncList (l : List Char) :
    ∀ c ∈ stringEncList l, ∃ m, m < 10 ∧ c = digitChar m := by
  induction l with
  | nil => intro c hc; simp [stringEncList] at hc
  | cons a as ih =>
    intro c hc
    rcases List.mem_append.mp hc with h | h
    · simp only [charEnc, List.mem_cons, List.not_mem_nil, or_false] at h
      rcases h with h | h | h | h | h | h | h <;> exact ⟨_, by omega, h⟩
    · exact ih c h

/-- The characters that never occur in a digit segment. -/
theorem noColon_of_digits {l : List Char} (h : ∀ c ∈ l, ∃ m, m < 10 ∧ c = digitChar m) :
    ∀ c ∈ l, c ≠ ':' := by
  intro c hc
  obtain ⟨m, hm, rfl⟩ := h c hc
  exact (digitChar_ne m hm).1

/-- Model of JavaScript `String.prototype.split(':')`: splits a character list
at every colon, keeping empty segments (`"".split` gives one empty segment). -/
def splitColonList : List Char → List (List Char)
  | [] => [[]]
  | c :: cs =>
    match splitColonList cs with
    | [] => [[]]
    | h :: t => if c = ':' then [] :: h :: t else (c :: h) :: t

theorem splitColonList_ne_nil (l : List Char) : splitColonList l ≠ [] := by
  induction l with
  | nil => simp [splitColonList]
  | cons c cs ih =>
    rw [splitColonList]
    cases hs : splitColonList cs with
    | nil => simp
    | cons x t => by_cases hc : c = ':' <;> simp [hc]

theorem splitColonList_noColon {l : List Char} (h : ∀ c ∈ l, c ≠ ':') :
    splitColonList l = [l] := by
  induction l with
  | nil => rfl
  | cons c cs ih =>
    have h1 : splitColonList cs = [cs] := ih (fun x hx => h x (List.mem_cons_of_mem c hx))
    have hc : c ≠ ':' := h c (List.mem_cons_self c cs)
    simp [splitColonList, h1, hc]

theorem splitColonList_append {a : List Char} (rest : List Char) (h : ∀ c ∈ a, c ≠ ':') :
    splitColonList (a ++ ':' :: rest) = a :: splitColonList rest := by
  induction a with
  | nil =>
    rw [List.nil_append, splitColonList]
    cases hs : splitColonList rest with
    | nil => exact absurd hs (splitColonList_ne_nil rest)
    | cons x t => simp
  | cons c cs ih =>
    have h1 := ih (fun x hx => h x (List.mem_cons_of_mem c hx))
    have hc : c ≠ ':' := h c (List.mem_cons_self c cs)
    simp only [List.cons_append, splitColonList, List.append_eq, hc, if_false]
    rw [h1]

/-!
## Symmetric cipher (src/services/qr.js lines 6-65)

`encrypt` and `decrypt` are taken from the source: the wire form is
`iv : authTag : ciphertext` (colon-delimited), `decrypt` splits on `':'`,
rejects anything that is not exactly three parts, and authenticates before
returning the plaintext.  The AES-GCM core (an external Node primitive) is
the ideal authenticated cipher described in the file header: `stringEncList`
plays the role of the hex ciphertext and `tagList` the role of the GCM tag —
a deterministic function of key, IV and ciphertext, as in GCM.
-/

/-- Modelled GCM authentication tag over (key, iv, ciphertext): deterministic,
colon-free, and determining the ciphertext for a fixed key and IV. -/
def tagList (key iv ct : List Char) : List Char :=
  stringEncList (key ++ ':' :: iv) ++ ct

/-- Wire form produced by `encrypt` (qr.js line 40): `iv:authTag:ciphertext`. -/
def encryptList (key iv text : List Char) : List Char :=
  iv ++ (':' :: (tagList key iv (stringEncList text) ++ (':' :: stringEncList text)))

/-- Model of qr.js `encrypt`; the per-call random 16-byte IV is an explicit
argument (a natural, rendered in digits as its hex string is in the source). -/
def encrypt (key : String) (iv : Nat) (text : String) : String :=
  ⟨encryptList key.data (natDec iv) text.data⟩

/-- Model of qr.js `decrypt` (lines 48-65): split on `':'`, fail unless there
are exactly three parts, authenticate, then decode.  `none` stands for the
thrown `Error` / cipher exception, which callers catch. -/
def decryptList (key : List Char) (l : List Char) : Option (List Char) :=
  match splitColonList l with
  | [iv, tag, ct] => if tag = tagList key iv ct then decodeChars ct else none
  | _ => none

/-- String-level wrapper of `decryptList`. -/
def decrypt (key : String) (s : String) : Option String :=
  (decryptList key.data s.data).map (fun l => ⟨l⟩)

theorem noColon_stringEncList (l : List Char) : ∀ c ∈ stringEncList l, c ≠ ':' :=
  noColon_of_digits (mem_stringEncList l)

theorem noColon_natDec (n : Nat) : ∀ c ∈ natDec n, c ≠ ':' :=
  noColon_of_digits (mem_natDec n)

theorem noColon_tagList (key iv text : List Char) :
    ∀ c ∈ tagList key iv (stringEncList text), c ≠ ':' := by
  intro c hc
  rcases List.mem_append.mp hc with h | h
  · exact noColon_stringEncList _ c h
  · exact noColon_stringEncList _ c h

theorem splitColonList_seg3 (a b c : List Char) (ha : ∀ x ∈ a, x ≠ ':')
    (hb : ∀ x ∈ b, x ≠ ':') (hc : ∀ x ∈ c, x ≠ ':') :
    splitColonList (a ++ (':' :: (b ++ (':' :: c)))) = [a, b, c] := by
  rw [splitColonList_append _ ha, splitColonList_append _ hb, splitColonList_noColon hc]

theorem splitColonList_seg4 (a b c d : List Char) (ha : ∀ x ∈ a, x ≠ ':')
    (hb : ∀ x ∈ b, x ≠ ':') (hc : ∀ x ∈ c, x ≠ ':') (hd : ∀ x ∈ d, x ≠ ':') :
    splitColonList (a ++ (':' :: (b ++ (':' :: (c ++ (':' :: d)))))) = [a, b, c, d] := by
  rw [splitColonList_append _ ha, splitColonList_append _ hb, splitColonList_append _ hc,
      splitColonList_noColon hd]

theorem splitColonList_encryptList (key : List Char) (iv : Nat) (text : List Char) :
    splitColonList (encryptList key (natDec iv) text) =
      [natDec iv, tagList key (natDec iv) (stringEncList text), stringEncList text] := by
  unfold encryptList
  exact splitColonList_seg3 _ _ _ (noColon_natDec iv)
    (noColon_tagList key (natDec iv) text) (noColon_stringEncList text)

/-- Decrypting a genuine encryption returns the original plaintext. -/
theorem decrypt_encrypt (key : String) (iv : Nat) (text : String) :
    decrypt key (encrypt key iv text) = some text := by
  unfold decrypt encrypt decryptList
  show (match splitColonList (encryptList key.data (natDec iv) text.data) with
    | [ivp, tag, ct] => if tag = tagList key.data ivp ct then decodeChars ct else none
    | _ => none).map (fun l => (⟨l⟩ : String)) = some text
  rw [splitColonList_encryptList]
  simp only [if_pos rfl, decodeChars_stringEncList]
  rfl

/-- Altering one character of the tag segment makes decryption fail: either
the string no longer has three parts (the new character is a colon) or the
altered tag no longer matches the recomputed tag. -/
theorem decryptList_tag_altered (key : List Char) (iv : Nat) (text : List Char)
    (j : Nat) (c : Char)
    (hj : j < (tagList key (natDec iv) (stringEncList text)).length)
    (hc : c ≠ (tagList key (natDec iv) (stringEncList text))[j]) :
    decryptList key
      (natDec iv ++ (':' :: ((tagList key (natDec iv) (stringEncList text)).set j c
        ++ (':' :: stringEncList text)))) = none := by
  have htagNC := noColon_tagList key (natDec iv) text
  by_cases hcol : c = ':'
  · subst hcol
    have hset : (tagList key (natDec iv) (stringEncList text)).set j ':' =
        (tagList key (natDec iv) (stringEncList text)).take j ++
          (':' :: (tagList key (natDec iv) (stringEncList text)).drop (j + 1)) := by
      rw [List.set_eq_take_append_cons_drop]
      simp [hj]
    have h1 : ∀ x ∈ (tagList key (natDec iv) (stringEncList text)).take j, x ≠ ':' :=
      fun x hx => htagNC x (List.mem_of_mem_take hx)
    have h2 : ∀ x ∈ (tagList key (natDec iv) (stringEncList text)).drop (j + 1), x ≠ ':' :=
      fun x hx => htagNC x (List.mem_of_mem_drop hx)
    unfold decryptList
    rw [hset, List.append_assoc, List.cons_append,
        splitColonList_seg4 _ _ _ _ (noColon_natDec iv) h1 h2 (noColon_stringEncList text)]
  · have h1 : ∀ x ∈ (tagList key (natDec iv) (stringEncList text)).set j c, x ≠ ':' := by
      intro x hx
      rcases List.mem_or_eq_of_mem_set hx with h | rfl
      · exact htagNC x h
      · exact hcol
    unfold decryptList
    rw [splitColonList_seg3 _ _ _ (noColon_natDec iv) h1 (noColon_stringEncList text)]
    have hne : (tagList key (natDec iv) (stringEncList text)).set j c ≠
        tagList key (natDec iv) (stringEncList text) :=
      set_ne_of_getElem_ne _ j c hj hc
    dsimp only
    rw [if_neg hne]

/-- Altering one character of the ciphertext segment makes decryption fail:
either the three-part structure breaks or the stored tag, which determines
the ciphertext, no longer matches. -/
theorem decryptList_ct_altered (key : List Char) (iv : Nat) (text : List Char)
    (j : Nat) (c : Char)
    (hj : j < (stringEncList text).length)
    (hc : c ≠ (stringEncList text)[j]) :
    decryptList key
      (natDec iv ++ (':' :: (tagList key (natDec iv) (stringEncList text)
        ++ (':' :: (stringEncList text).set j c)))) = none := by
  have hctNC := noColon_stringEncList text
  by_cases hcol : c = ':'
  · subst hcol
    have hset : (stringEncList text).set j ':' =
        (stringEncList text).take j ++ (':' :: (stringEncList text).drop (j + 1)) := by
      rw [List.set_eq_take_append_cons_drop]
      simp [hj]
    have h1 : ∀ x ∈ (stringEncList text).take j, x ≠ ':' :=
      fun x hx => hctNC x (List.mem_of_mem_take hx)
    have h2 : ∀ x ∈ (stringEncList text).drop (j + 1), x ≠ ':' :=
      fun x hx => hctNC x (List.mem_of_mem_drop hx)
    unfold decryptList
    rw [hset,
        splitColonList_seg4 _ _ _ _ (noColon_natDec iv)
          (noColon_tagList key (natDec iv) text) h1 h2]
  · have h1 : ∀ x ∈ (stringEncList text).set j c, x ≠ ':' := by
      intro x hx
      rcases List.mem_or_eq_of_mem_set hx with h | rfl
      · exact hctNC x h
      · exact hcol
    unfold decryptList
    rw [splitColonList_seg3 _ _ _ (noColon_natDec iv)
        (noColon_tagList key (natDec iv) text) h1]
    have hne : tagList key (natDec iv) (stringEncList text) ≠
        tagList key (natDec iv) ((stringEncList text).set j c) := by
      intro he
      unfold tagList at he
      have h2 := List.append_cancel_left he
      exact set_ne_of_getElem_ne _ j c hj hc h2.symm
    dsimp only
    rw [if_neg hne]

/-!
## Token payload and its JSON wire form

`generateQRToken` (qr.js lines 76-86) builds
`{ reportIds, userId, expiresAt, createdAt }` and encrypts
`JSON.stringify(tokenData)`.  `jsonStringify` reproduces that exact object
layout; `jsonParse` models `JSON.parse` on this token grammar (string values
with quote/backslash escaping; the two timestamps as produced by `isoOf`).
-/

/-- Logical token content (the plaintext object of qr.js lines 78-83). -/
structure TokenData where
  reportIds : List String
  userId : String
  expiresAt : Nat
  createdAt : Nat
deriving DecidableEq, Repr

/-- Model of `Date.toISOString`: the timestamp's millisecond value in decimal
(the code only ever maps the string back to a `Date`, see the file header). -/
def isoOf (t : Nat) : String := ⟨natDec t⟩

/-- JSON escaping of one character inside a string literal. -/
def escChar (c : Char) : List Char :=
  if c = '"' ∨ c = '\\' then ['\\', c] else [c]

/-- JSON escaping of a character list. -/
def escList : List Char → List Char
  | [] => []
  | c :: cs => escChar c ++ escList cs

/-- A JSON string literal with its quotes. -/
def jsonStrLit (s : String) : List Char := '"' :: (escList s.data ++ ['"'])

/-- Comma-separated JSON string literals (the inside of a JSON array). -/
def arrayBody : List String → List Char
  | [] => []
  | [s] => jsonStrLit s
  | s :: rest => jsonStrLit s ++ (',' :: arrayBody rest)

/-- A JSON array of strings. -/
def jsonStrArray (l : List String) : List Char := '[' :: (arrayBody l ++ [']'])

/-- Model of `JSON.stringify(tokenData)` for the object built at issuance. -/
def jsonStringify (td : TokenData) : String :=
  ⟨("\x7b\"reportIds\":".data) ++
    (jsonStrArray td.reportIds ++
      ((",\"userId\":".data) ++
        (jsonStrLit td.userId ++
          ((",\"expiresAt\":".data) ++
            (jsonStrLit (isoOf td.expiresAt) ++
              ((",\"createdAt\":".data) ++
                (jsonStrLit (isoOf td.createdAt) ++ ("\x7d".data))))))))⟩

/-- Consume an expected literal from the front of the input. -/
def dropLit : List Char → List Char → Option (List Char)
  | [], l => some l
  | _ :: _, [] => none
  | c :: cs, d :: l => if d = c then dropLit cs l else none

/-- Parse the body of a JSON string literal (after the opening quote) up to
its closing quote, undoing `escChar`. -/
def parseStrChars : List Char → Option (List Char × List Char)
  | [] => none
  | c :: rest =>
    if c = '"' then some ([], rest)
    else if c = '\\' then
      match rest with
      | [] => none
      | d :: rest2 =>
        match parseStrChars rest2 with
        | some (s, r) => some (d :: s, r)
        | none => none
    else
      match parseStrChars rest with
      | some (s, r) => some (c :: s, r)
      | none => none

/-- Parse a quoted JSON string literal. -/
def parseQuoted (l : List Char) : Option (List Char × List Char) :=
  match l with
  | [] => none
  | c :: rest => if c = '"' then parseStrChars rest else none

/-- Parse one or more comma-separated string literals followed by `']'`. -/
def parseItems (fuel : Nat) (l : List Char) : Option (List String × List Char) :=
  match fuel with
  | 0 => none
  | fuel + 1 =>
    match parseQuoted l with
    | none => none
    | some (s, r) =>
      match r with
      | [] => none
      | d :: r2 =>
        if d = ',' then
          match parseItems fuel r2 with
          | some (ss, rr) => some (⟨s⟩ :: ss, rr)
          | none => none
        else if d = ']' then some ([⟨s⟩], r2)
        else none

/-- Parse a JSON array of string literals. -/
def parseArray (fuel : Nat) (l : List Char) : Option (List String × List Char) :=
  match l with
  | [] => none
  | c :: rest =>
    if c = '[' then
      match rest with
      | [] => none
      | d :: r2 => if d = ']' then some ([], r2) else parseItems fuel rest
    else none

/-- Model of `JSON.parse` on the token-object grammar produced at issuance
(qr.js line 123): returns the parsed `TokenData`, or `none` for the thrown
`SyntaxError` on any malformed input. -/
def jsonParseList (l : List Char) : Option TokenData :=
  match dropLit ("\x7b\"reportIds\":".data) l with
  | none => none
  | some l1 =>
    match parseArray l1.length l1 with
    | none => none
    | some (ids, l2) =>
      match dropLit (",\"userId\":".data) l2 with
      | none => none
      | some l3 =>
        match parseQuoted l3 with
        | none => none
        | some (uid, l4) =>
          match dropLit (",\"expiresAt\":".data) l4 with
          | none => none
          | some l5 =>
            match parseQuoted l5 with
            | none => none
            | some (expS, l6) =>
              match decVal expS with
              | none => none
              | some expiresAt =>
                match dropLit (",\"createdAt\":".data) l6 with
                | none => none
                | some l7 =>
                  match parseQuoted l7 with
                  | none => none
                  | some (creS, l8) =>
                    match decVal creS with
                    | none => none
                    | some createdAt =>
                      match dropLit ("\x7d".data) l8 with
                      | some [] => some ⟨ids, ⟨uid⟩, expiresAt, createdAt⟩
                      | _ => none

/-- String-level wrapper of `jsonParseList`. -/
def jsonParse (s : String) : Option TokenData := jsonParseList s.data

theorem dropLit_append (lit rest : List Char) : dropLit lit (lit ++ rest) = some rest := by
  induction lit with
  | nil => rfl
  | cons c cs ih => simp [dropLit, ih]

theorem parseStrChars_cons (c : Char) (rest : List Char) :
    parseStrChars (c :: rest) =
      if c = '"' then some ([], rest)
      else if c = '\\' then
        match rest with
        | [] => none
        | d :: rest2 =>
          match parseStrChars rest2 with
          | some (s, r) => some (d :: s, r)
          | none => none
      else
        match parseStrChars rest with
        | some (s, r) => some (c :: s, r)
        | none => none := by
  rw [parseStrChars.eq_def]

theorem parseStrChars_round (s rest : List Char) :
    parseStrChars (escList s ++ ('"' :: rest)) = some (s, rest) := by
  induction s with
  | nil =>
    show parseStrChars ('"' :: rest) = _
    rw [parseStrChars_cons, if_pos rfl]
  | cons c cs ih =>
    show parseStrChars ((escChar c ++ escList cs) ++ ('"' :: rest)) = _
    by_cases hc : c = '"' ∨ c = '\\'
    · rw [escChar, if_pos hc]
      simp only [List.cons_append, List.nil_append, List.append_assoc]
      rw [parseStrChars_cons, if_neg (by decide), if_pos rfl]
      dsimp only
      rw [ih]
    · rw [escChar, if_neg hc]
      push_neg at hc
      simp only [List.cons_append, List.nil_append, List.append_assoc]
      rw [parseStrChars_cons, if_neg hc.1, if_neg hc.2]
      rw [ih]

theorem parseQuoted_round (s : String) (rest : List Char) :
    parseQuoted (jsonStrLit s ++ rest) = some (s.data, rest) := by
  show parseQuoted (('"' :: (escList s.data ++ ['"'])) ++ rest) = _
  simp only [List.cons_append, List.append_assoc, List.nil_append]
  rw [parseQuoted, if_pos rfl]
  exact parseStrChars_round s.data rest

theorem parseItems_round (ids : List String) (rest : List Char) :
    ∀ fuel, ids.length + 1 ≤ fuel → ids ≠ [] →
      parseItems fuel (arrayBody ids ++ (']' :: rest)) = some (ids, rest) := by
  induction ids with
  | nil => intro fuel _ h; exact absurd rfl h
  | cons s tail ih =>
    intro fuel hfuel _
    obtain ⟨f, rfl⟩ : ∃ f, fuel = f + 1 := ⟨fuel - 1, by omega⟩
    cases tail with
    | nil =>
      show parseItems (f + 1) (jsonStrLit s ++ (']' :: rest)) = _
      rw [parseItems, parseQuoted_round s (']' :: rest)]
      rfl
    | cons t ts =>
      show parseItems (f + 1) ((jsonStrLit s ++ (',' :: arrayBody (t :: ts))) ++ (']' :: rest)) = _
      rw [List.append_assoc, List.cons_append,
          parseItems, parseQuoted_round s (',' :: (arrayBody (t :: ts) ++ (']' :: rest)))]
      have hrec := ih f (by simp at hfuel ⊢; omega) (by simp)
      show (if (',' : Char) = ',' then
          match parseItems f (arrayBody (t :: ts) ++ (']' :: rest)) with
          | some (ss, rr) => some ((⟨s.data⟩ : String) :: ss, rr)
          | none => none
        else if (',' : Char) = ']' then some ([(⟨s.data⟩ : String)], arrayBody (t :: ts) ++ (']' :: rest))
        else none) = some (s :: t :: ts, rest)
      rw [if_pos rfl, hrec]

theorem parseArray_round (ids : List String) (rest : List Char) (fuel : Nat)
    (hfuel : ids.length + 1 ≤ fuel) :
    parseArray fuel (jsonStrArray ids ++ rest) = some (ids, rest) := by
  cases ids with
  | nil =>
    show parseArray fuel (('[' :: ([] ++ [']'])) ++ rest) = _
    simp only [List.nil_append, List.cons_append]
    rw [parseArray, if_pos rfl, if_pos rfl]
  | cons s tail =>
    obtain ⟨B, hB⟩ : ∃ B, arrayBody (s :: tail) = '"' :: B := by
      cases tail with
      | nil => exact ⟨escList s.data ++ ['"'], rfl⟩
      | cons t ts => exact ⟨(escList s.data ++ ['"']) ++ (',' :: arrayBody (t :: ts)), rfl⟩
    have h := parseItems_round (s :: tail) rest fuel hfuel (by simp)
    show parseArray fuel (('[' :: (arrayBody (s :: tail) ++ [']'])) ++ rest) = _
    simp only [List.cons_append, List.append_assoc, List.nil_append] at h ⊢
    rw [hB] at h ⊢
    simp only [List.cons_append] at h ⊢
    rw [parseArray, if_pos rfl]
    show (if ('"' : Char) = ']' then some (([] : List String), B ++ (']' :: rest))
      else parseItems fuel ('"' :: (B ++ (']' :: rest)))) = some (s :: tail, rest)
    rw [if_neg (by decide)]
    exact h

theorem arrayBody_length_ge (ids : List String) : ids.length ≤ (arrayBody ids).length := by
  induction ids with
  | nil => simp [arrayBody]
  | cons s tail ih =>
    cases tail with
    | nil => simp [arrayBody, jsonStrLit]
    | cons t ts =>
      show (s :: t :: ts).length ≤ (jsonStrLit s ++ (',' :: arrayBody (t :: ts))).length
      simp only [List.length_cons, List.length_append, jsonStrLit] at ih ⊢
      omega

theorem parseArray_round' (ids : List String) (rest : List Char) :
    parseArray ((jsonStrArray ids ++ rest).length) (jsonStrArray ids ++ rest) =
      some (ids, rest) := by
  refine parseArray_round ids rest _ ?_
  have := arrayBody_length_ge ids
  simp only [jsonStrArray, List.length_append, List.length_cons]
  omega

theorem decVal_isoOf (t : Nat) : decVal ((isoOf t).data) = some t := decVal_natDec t

theorem dropLit_self (l : List Char) : dropLit l l = some [] := by
  have := dropLit_append l []
  simpa using this

/-- Parsing the serialized token yields the original token. -/
theorem jsonParse_stringify (td : TokenData) : jsonParse (jsonStringify td) = some td := by
  obtain ⟨ids, uid, exp, cre⟩ := td
  show jsonParseList
    (("\x7b\"reportIds\":".data) ++
      (jsonStrArray ids ++
        ((",\"userId\":".data) ++
          (jsonStrLit uid ++
            ((",\"expiresAt\":".data) ++
              (jsonStrLit (isoOf exp) ++
                ((",\"createdAt\":".data) ++
                  (jsonStrLit (isoOf cre) ++ ("\x7d".data))))))))) = some ⟨ids, uid, exp, cre⟩
  simp only [jsonParseList, dropLit_append, parseArray_round', parseQuoted_round,
    decVal_isoOf, dropLit_self]

/-!
## Token store (Firestore collection `qrTokens`) and the qr.js services

The store is an association list keyed by the wire-token string, as the code
keys the document by `encryptedToken` (qr.js line 97).  `StoreGetOutcome`
models the three possible results of the awaited lookup on line 117: a
document that exists, a document that does not, or a thrown error.
-/

/-- The persisted mirror record (qr.js lines 89-95); `aiSummary` and
`summaryGeneratedAt` are absent at issuance and attached later by the
route's summary update (reports.js lines 461-465). -/
structure TokenDoc where
  qrToken : String
  reportIds : List String
  userId : String
  expiresAt : Nat
  createdAt : Nat
  aiSummary : Option String
  summaryGeneratedAt : Option Nat
deriving DecidableEq, Repr

/-- The `qrTokens` collection. -/
abbrev QrStore := List (String × TokenDoc)

/-- Model of `db.collection('qrTokens').doc(k).get()` when the store is
reachable. -/
def storeGet (s : QrStore) (k : String) : Option TokenDoc :=
  match s.find? (fun p => p.1 == k) with
  | some p => some p.2
  | none => none

/-- Model of `db.collection('qrTokens').doc(k).set(doc)`. -/
def storeSet (s : QrStore) (k : String) (d : TokenDoc) : QrStore :=
  (k, d) :: s.filter (fun p => p.1 != k)

/-- Model of the summary-attach `update` (reports.js lines 462-465): merge the
two summary fields into the existing document. -/
def attachSummary (s : QrStore) (k : String) (summary : String) (t : Nat) : QrStore :=
  s.map (fun p =>
    if p.1 = k then (p.1, { p.2 with aiSummary := some summary, summaryGeneratedAt := some t })
    else p)

/-- Result of `validateQRToken`: `{valid:false}` carries nothing — the code
returns the bare object with no reason field (qr.js lines 128, 137, 146, 156). -/
inductive ValidationResult where
  | invalid : ValidationResult
  | valid (reportIds : List String) (expiresAt : Nat) : ValidationResult
deriving DecidableEq, Repr

/-- Outcome of the awaited store lookup in `validateQRToken`: document found,
document absent, or the lookup itself threw (store unreachable). -/
inductive StoreGetOutcome where
  | found (doc : TokenDoc) : StoreGetOutcome
  | absent : StoreGetOutcome
  | failure : StoreGetOutcome
deriving DecidableEq, Repr

/-- Model of qr.js `generateQRToken` (lines 74-107) on a successful store
write: build the token data, encrypt its JSON, store the mirror document
keyed by the wire token, and return `{qrToken, expiresAt}` together with the
updated store.  `now` is `Date.now()` in ms and `iv` the random IV drawn by
`encrypt`; `expiresIn` is in seconds (`expiresIn * 1000` as on line 77). -/
def generateQRToken (key : String) (store : QrStore) (now : Nat) (iv : Nat)
    (reportIds : List String) (expiresIn : Nat) (userId : String) :
    (String × Nat) × QrStore :=
  let expiresAt := now + expiresIn * 1000
  let tokenData : TokenData := ⟨reportIds, userId, expiresAt, now⟩
  let encryptedToken := encrypt key iv (jsonStringify tokenData)
  let tokenDoc : TokenDoc := ⟨encryptedToken, reportIds, userId, expiresAt, now, none, none⟩
  ((encryptedToken, expiresAt), storeSet store encryptedToken tokenDoc)

/-- Model of qr.js `validateQRToken` (lines 114-158), parameterized by the
outcome of the store lookup.  A thrown lookup is caught by the outer
`try/catch` (line 154) and yields `{valid:false}` before any cipher work; an
absent document takes the decrypt-fallback (lines 119-139); a found document
decides from the record alone (lines 141-153).  `expiresAt < now` is the
strict `new Date(tokenData.expiresAt) < new Date()` comparison. -/
def validateQRTokenWith (key : String) (lookup : StoreGetOutcome) (now : Nat)
    (qrToken : String) : ValidationResult :=
  match lookup with
  | .failure => .invalid
  | .absent =>
    match decrypt key qrToken with
    | none => .invalid
    | some plain =>
      match jsonParse plain with
      | none => .invalid
      | some td => if td.expiresAt < now then .invalid else .valid td.reportIds td.expiresAt
  | .found doc => if doc.expiresAt < now then .invalid else .valid doc.reportIds doc.expiresAt

/-- Lookup outcome of a reachable store. -/
def lookupOutcome (s : QrStore) (k : String) : StoreGetOutcome :=
  match storeGet s k with
  | some d => .found d
  | none => .absent

/-- `validateQRToken` against a reachable store. -/
def validateQRToken (key : String) (store : QrStore) (now : Nat) (qrToken : String) :
    ValidationResult :=
  validateQRTokenWith key (lookupOutcome store qrToken) now qrToken

theorem storeGet_storeSet (s : QrStore) (k : String) (d : TokenDoc) :
    storeGet (storeSet s k d) k = some d := by
  simp [storeGet, storeSet, List.find?]

theorem storeGet_attachSummary (s : QrStore) (k : String) (v : String) (t : Nat) :
    storeGet (attachSummary s k v t) k =
      (storeGet s k).map
        (fun d => { d with aiSummary := some v, summaryGeneratedAt := some t }) := by
  induction s with
  | nil => rfl
  | cons p tail ih =>
    obtain ⟨a, d⟩ := p
    by_cases ha : a = k
    · subst ha
      simp [attachSummary, storeGet, List.find?]
    · have hb : (a == k) = false := beq_false_of_ne ha
      simp only [attachSummary, List.map_cons, if_neg ha, storeGet, List.find?, hb]
      simpa [attachSummary, storeGet] using ih

/-!
## Access resolver: `getReportsByQRToken` (qr.js lines 188-268)

The `reports` collection is a second association list.  The download grant
generator (`generateDownloadUrl` of src/services/storage.js, an S3 presigner)
is an external I/O collaborator and is passed in as a function
`grant : String → Option String`, `none` standing for a thrown error (caught
per item on lines 226-229).  JS truthiness of `||` and of `if (fileKey)` is
modelled by `jsOrString` / the empty-string guard.
-/

/-- The runtime type of a stored `reportDate` (qr.js lines 206-217 branch on
Firestore `Timestamp`, JS `Date`, or plain string). -/
inductive ReportDateVal where
  | tsVal (ms : Nat) : ReportDateVal
  | dateVal (ms : Nat) : ReportDateVal
  | strVal (s : String) : ReportDateVal
deriving DecidableEq, Repr

/-- A stored report document — the fields read by `getReportsByQRToken`. -/
structure ReportDoc where
  userId : String
  fileName : Option String
  fileType : Option String
  title : Option String
  reportDate : Option ReportDateVal
  category : Option String
  doctorName : Option String
  clinicName : Option String
  fileKey : Option String
  storageUrl : Option String
deriving DecidableEq, Repr

/-- The `reports` collection. -/
abbrev ReportStore := List (String × ReportDoc)

/-- Model of `db.collection('reports').doc(k).get()`. -/
def reportGet (s : ReportStore) (k : String) : Option ReportDoc :=
  match s.find? (fun p => p.1 == k) with
  | some p => some p.2
  | none => none

/-- The limited report view pushed for doctor access (qr.js lines 232-242). -/
structure ReportView where
  reportId : String
  fileName : Option String
  fileType : Option String
  title : Option String
  reportDate : Option String
  category : Option String
  doctorName : Option String
  clinicName : Option String
  storageUrl : Option String
deriving DecidableEq, Repr

/-- JavaScript `a || b` on string-or-null values: `null` and `''` are falsy. -/
def jsOrString (a b : Option String) : Option String :=
  match a with
  | some s => if s = "" then b else some s
  | none => b

/-- The reportDate conversion of qr.js lines 205-217. -/
def reportDateString (d : Option ReportDateVal) : Option String :=
  match d with
  | some (.tsVal ms) => some (isoOf ms)
  | some (.dateVal ms) => some (isoOf ms)
  | some (.strVal s) => some s
  | none => none

/-- One iteration of the resolution loop (qr.js lines 200-244): skip a missing
document; otherwise build the view, requesting a download grant when a
(truthy) `fileKey` is present and falling back to the stored `storageUrl`
when the grant fails or is falsy. -/
def resolveReport (rs : ReportStore) (grant : String → Option String)
    (reportId : String) : Option ReportView :=
  match reportGet rs reportId with
  | none => none
  | some rd =>
    let downloadUrl : Option String :=
      match rd.fileKey with
      | some fk => if fk = "" then none else grant fk
      | none => none
    some { reportId := reportId, fileName := rd.fileName, fileType := rd.fileType,
           title := rd.title, reportDate := reportDateString rd.reportDate,
           category := rd.category, doctorName := rd.doctorName,
           clinicName := rd.clinicName,
           storageUrl := jsOrString downloadUrl rd.storageUrl }

/-- The value returned by `getReportsByQRToken` (qr.js lines 259-263). -/
structure ResolveResult where
  reports : List ReportView
  expiresAt : Nat
  aiSummary : Option String
deriving DecidableEq, Repr

/-- Model of qr.js `getReportsByQRToken` (lines 188-268): validate, throw on
an invalid token, resolve each referenced report in order (skipping missing
ones), then best-effort read `aiSummary` from the token document
(`tokenData.aiSummary || null`, line 252). -/
def getReportsByQRToken (key : String) (store : QrStore) (rs : ReportStore)
    (grant : String → Option String) (now : Nat) (qrToken : String) :
    Except String ResolveResult :=
  match validateQRToken key store now qrToken with
  | .invalid => .error "Invalid or expired QR token"
  | .valid reportIds expiresAt =>
    let reports := reportIds.filterMap (resolveReport rs grant)
    let aiSummary : Option String :=
      match storeGet store qrToken with
      | some doc => jsOrString doc.aiSummary none
      | none => none
    .ok ⟨reports, expiresAt, aiSummary⟩

/-!
## The QR-generation route (src/routes/reports.js lines 417-487)

After `generateQRToken` succeeds, the route generates an AI summary and
attaches it to the token document inside its own `try/catch`: a failure of
either step is logged and swallowed, and the response is sent regardless.
`SummaryOutcome` enumerates the three runs of that block.  (The preceding
per-report ownership check and the QR-image rendering are outside the scope
of the properties below.)
-/

/-- How the summary-generation-and-attach block ran. -/
inductive SummaryOutcome where
  | genFailed : SummaryOutcome
  | updateFailed (summary : String) (generatedAt : Nat) : SummaryOutcome
  | attached (summary : String) (generatedAt : Nat) : SummaryOutcome
deriving DecidableEq, Repr

/-- The issuance response body (reports.js lines 474-481). -/
structure QrGenerateResponse where
  qrToken : String
  expiresAt : Nat
  aiSummary : Option String
deriving DecidableEq, Repr

/-- Model of the `POST /qr/generate` handler from the `generateQRToken` call
onward.  Note that when the attach `update` throws (`updateFailed`), the
local `aiSummary` variable was already assigned, so the response carries the
summary even though the store was not updated. -/
def qrGenerateRoute (key : String) (store : QrStore) (now : Nat) (iv : Nat)
    (reportIds : List String) (expiresIn : Nat) (userId : String)
    (outcome : SummaryOutcome) : QrGenerateResponse × QrStore :=
  let r := generateQRToken key store now iv reportIds expiresIn userId
  match outcome with
  | .genFailed => (⟨r.1.1, r.1.2, none⟩, r.2)
  | .updateFailed s _ => (⟨r.1.1, r.1.2, some s⟩, r.2)
  | .attached s t => (⟨r.1.1, r.1.2, some s⟩, attachSummary r.2 r.1.1 s t)

/-!
## Bridge lemmas: what validation and resolution do on issued tokens
-/

/-- The three wire segments of the token issued for token data `td` under
`key` and `iv`: the IV rendering of `encrypt`. -/
def issuedIvSeg (iv : Nat) : List Char := natDec iv

/-- The ciphertext segment of the issued wire token. -/
def issuedCtSeg (td : TokenData) : List Char := stringEncList (jsonStringify td).data

/-- The authentication-tag segment of the issued wire token. -/
def issuedTagSeg (key : String) (iv : Nat) (td : TokenData) : List Char :=
  tagList key.data (natDec iv) (issuedCtSeg td)

theorem validateQRTokenWith_absent_issued (key userId : String) (ids : List String)
    (store : QrStore) (now0 iv expiresIn now : Nat) :
    validateQRTokenWith key .absent now
        (generateQRToken key store now0 iv ids expiresIn userId).1.1 =
      if now0 + expiresIn * 1000 < now then .invalid
      else .valid ids (now0 + expiresIn * 1000) := by
  show validateQRTokenWith key .absent now
      (encrypt key iv (jsonStringify ⟨ids, userId, now0 + expiresIn * 1000, now0⟩)) = _
  simp only [validateQRTokenWith, decrypt_encrypt, jsonParse_stringify]

theorem validateQRToken_issued_store (key userId : String) (ids : List String)
    (store : QrStore) (now0 iv expiresIn now : Nat) :
    validateQRToken key (generateQRToken key store now0 iv ids expiresIn userId).2 now
        (generateQRToken key store now0 iv ids expiresIn userId).1.1 =
      if now0 + expiresIn * 1000 < now then .invalid
      else .valid ids (now0 + expiresIn * 1000) := by
  unfold validateQRToken lookupOutcome
  rw [show (generateQRToken key store now0 iv ids expiresIn userId).2 =
    storeSet store (generateQRToken key store now0 iv ids expiresIn userId).1.1
      ⟨(generateQRToken key store now0 iv ids expiresIn userId).1.1, ids, userId,
        now0 + expiresIn * 1000, now0, none, none⟩ from rfl]
  rw [storeGet_storeSet]
  rfl

theorem validateQRToken_attached (key userId : String) (ids : List String)
    (store : QrStore) (now0 iv expiresIn now : Nat) (s : String) (t : Nat) :
    validateQRToken key
        (attachSummary (generateQRToken key store now0 iv ids expiresIn userId).2
          (generateQRToken key store now0 iv ids expiresIn userId).1.1 s t) now
        (generateQRToken key store now0 iv ids expiresIn userId).1.1 =
      if now0 + expiresIn * 1000 < now then .invalid
      else .valid ids (now0 + expiresIn * 1000) := by
  unfold validateQRToken lookupOutcome
  rw [storeGet_attachSummary]
  rw [show (generateQRToken key store now0 iv ids expiresIn userId).2 =
    storeSet store (generateQRToken key store now0 iv ids expiresIn userId).1.1
      ⟨(generateQRToken key store now0 iv ids expiresIn userId).1.1, ids, userId,
        now0 + expiresIn * 1000, now0, none, none⟩ from rfl]
  rw [storeGet_storeSet]
  rfl

theorem map_reportId_filterMap (rs : ReportStore) (grant : String → Option String)
    (ids : List String) :
    (ids.filterMap (resolveReport rs grant)).map (fun v => v.reportId) =
      ids.filter (fun i => (reportGet rs i).isSome) := by
  induction ids with
  | nil => rfl
  | cons i t ih =>
    cases hr : reportGet rs i with
    | none => simp [List.filterMap_cons, List.filter_cons, resolveReport, hr, ih]
    | some rd => simp [List.filterMap_cons, List.filter_cons, resolveReport, hr, ih]

theorem resolveReport_some (rs : ReportStore) (grant : String → Option String)
    (i : String) (v : ReportView) (h : resolveReport rs grant i = some v) :
    v.reportId = i ∧ (reportGet rs i).isSome = true := by
  unfold resolveReport at h
  cases hr : reportGet rs i with
  | none => rw [hr] at h; exact absurd h (by simp)
  | some rd =>
    rw [hr] at h
    injection h with h
    subst h
    exact ⟨rfl, by simp⟩

theorem getReports_issued (key userId : String) (ids : List String) (store : QrStore)
    (rs : ReportStore) (grant : String → Option String) (now0 iv expiresIn now : Nat)
    (hnow : now < now0 + expiresIn * 1000) :
    getReportsByQRToken key (generateQRToken key store now0 iv ids expiresIn userId).2
        rs grant now (generateQRToken key store now0 iv ids expiresIn userId).1.1 =
      .ok ⟨ids.filterMap (resolveReport rs grant), now0 + expiresIn * 1000, none⟩ := by
  unfold getReportsByQRToken
  rw [validateQRToken_issued_store, if_neg (by omega)]
  rw [show (generateQRToken key store now0 iv ids expiresIn userId).2 =
    storeSet store (generateQRToken key store now0 iv ids expiresIn userId).1.1
      ⟨(generateQRToken key store now0 iv ids expiresIn userId).1.1, ids, userId,
        now0 + expiresIn * 1000, now0, none, none⟩ from rfl]
  rw [storeGet_storeSet]
  rfl

theorem getReports_attached (key userId : String) (ids : List String) (store : QrStore)
    (rs : ReportStore) (grant : String → Option String) (now0 iv expiresIn now : Nat)
    (s : String) (t : Nat) (hnow : now < now0 + expiresIn * 1000) :
    getReportsByQRToken key
        (attachSummary (generateQRToken key store now0 iv ids expiresIn userId).2
          (generateQRToken key store now0 iv ids expiresIn userId).1.1 s t)
        rs grant now (generateQRToken key store now0 iv ids expiresIn userId).1.1 =
      .ok ⟨ids.filterMap (resolveReport rs grant), now0 + expiresIn * 1000,
        if s = "" then none else some s⟩ := by
  unfold getReportsByQRToken
  rw [validateQRToken_attached, if_neg (by omega)]
  rw [storeGet_attachSummary]
  rw [show (generateQRToken key store now0 iv ids expiresIn userId).2 =
    storeSet store (generateQRToken key store now0 iv ids expiresIn userId).1.1
      ⟨(generateQRToken key store now0 iv ids expiresIn userId).1.1, ids, userId,
        now0 + expiresIn * 1000, now0, none, none⟩ from rfl]
  rw [storeGet_storeSet]
  rfl

theorem decryptList_not_three (key l : List Char)
    (h : (splitColonList l).length ≠ 3) : decryptList key l = none := by
  unfold decryptList
  rcases hs : splitColonList l with _ | ⟨a, _ | ⟨b, _ | ⟨c3, _ | ⟨d, t⟩⟩⟩⟩ <;>
    first
      | rfl
      | (rw [hs] at h; simp at h)

/-!
## The claims
-/

/-- C1: Round-trip — for every non-empty list of resource IDs, every owner ID,
and every TTL in the allowed range (60–86400 s), issuing a token with
`generateQRToken` and validating the returned wire token at any time strictly
before the issued `expiresAt` yields `valid:true` with the issued `reportIds`
and `expiresAt`, both on the store-hit path and on the decrypt-fallback path
(record absent). -/
theorem c1_round_trip (key userId : String) (ids : List String) (store : QrStore)
    (now0 iv expiresIn now : Nat)
    (hids : ids ≠ []) (hlo : 60 ≤ expiresIn) (hhi : expiresIn ≤ 86400)
    (hnow : now < now0 + expiresIn * 1000) :
    (generateQRToken key store now0 iv ids expiresIn userId).1.2 = now0 + expiresIn * 1000 ∧
    validateQRToken key (generateQRToken key store now0 iv ids expiresIn userId).2 now
        (generateQRToken key store now0 iv ids expiresIn userId).1.1 =
      .valid ids (now0 + expiresIn * 1000) ∧
    validateQRTokenWith key .absent now
        (generateQRToken key store now0 iv ids expiresIn userId).1.1 =
      .valid ids (now0 + expiresIn * 1000) := by
  refine ⟨rfl, ?_, ?_⟩
  · rw [validateQRToken_issued_store, if_neg (by omega)]
  · rw [validateQRTokenWith_absent_issued, if_neg (by omega)]

theorem c1_round_trip_witness :
    (["r1", "r2"] : List String) ≠ [] ∧ 60 ≤ 60 ∧ 60 ≤ 86400 ∧ 59999 < 0 + 60 * 1000 ∧
    ((generateQRToken "k" [] 0 7 ["r1", "r2"] 60 "u").1.2 = 0 + 60 * 1000 ∧
      validateQRToken "k" (generateQRToken "k" [] 0 7 ["r1", "r2"] 60 "u").2 59999
          (generateQRToken "k" [] 0 7 ["r1", "r2"] 60 "u").1.1 =
        .valid ["r1", "r2"] (0 + 60 * 1000) ∧
      validateQRTokenWith "k" .absent 59999
          (generateQRToken "k" [] 0 7 ["r1", "r2"] 60 "u").1.1 =
        .valid ["r1", "r2"] (0 + 60 * 1000)) :=
  ⟨by decide, by decide, by decide, by decide,
    c1_round_trip "k" "u" ["r1", "r2"] [] 0 7 60 59999 (by decide) (by decide) (by decide)
      (by decide)⟩

/-- C2: Expiry monotonicity — for every issued token and every time strictly
after the issued `expiresAt`, `validateQRToken` returns `{valid:false}`, both
when the store record is present (store-hit) and when it is absent
(decrypt-fallback); since this holds for all such times, an expired token
never validates again. -/
theorem c2_expiry_monotonic (key userId : String) (ids : List String) (store : QrStore)
    (now0 iv expiresIn now : Nat)
    (hnow : now0 + expiresIn * 1000 < now) :
    validateQRToken key (generateQRToken key store now0 iv ids expiresIn userId).2 now
        (generateQRToken key store now0 iv ids expiresIn userId).1.1 = .invalid ∧
    validateQRTokenWith key .absent now
        (generateQRToken key store now0 iv ids expiresIn userId).1.1 = .invalid := by
  refine ⟨?_, ?_⟩
  · rw [validateQRToken_issued_store, if_pos (by omega)]
  · rw [validateQRTokenWith_absent_issued, if_pos (by omega)]

theorem c2_expiry_monotonic_witness :
    0 + 60 * 1000 < 60001 ∧
    (validateQRToken "k" (generateQRToken "k" [] 0 7 ["r1"] 60 "u").2 60001
        (generateQRToken "k" [] 0 7 ["r1"] 60 "u").1.1 = .invalid ∧
      validateQRTokenWith "k" .absent 60001
        (generateQRToken "k" [] 0 7 ["r1"] 60 "u").1.1 = .invalid) :=
  ⟨by decide, c2_expiry_monotonic "k" "u" ["r1"] [] 0 7 60 60001 (by decide)⟩

/-- C3: Dual-path validation — `validateQRToken` first looks up the store
record keyed by the wire-token string; when a record exists it decides
entirely from that record (invalid iff the record is expired, otherwise the
record's fields) without invoking the cipher (the result does not depend on
the key); only when no record exists does it decrypt, parse and
expiry-check, returning `{valid:false}` on any decryption/parse failure. -/
theorem c3_dual_path (key key2 : String) (store : QrStore) (now : Nat) (tok : String) :
    (∀ doc, storeGet store tok = some doc →
      validateQRToken key store now tok =
        (if doc.expiresAt < now then .invalid else .valid doc.reportIds doc.expiresAt) ∧
      validateQRToken key store now tok = validateQRToken key2 store now tok) ∧
    (storeGet store tok = none →
      ((decrypt key tok).bind jsonParse = none →
        validateQRToken key store now tok = .invalid) ∧
      (∀ td, (decrypt key tok).bind jsonParse = some td →
        validateQRToken key store now tok =
          if td.expiresAt < now then .invalid else .valid td.reportIds td.expiresAt)) := by
  constructor
  · intro doc hdoc
    unfold validateQRToken lookupOutcome
    rw [hdoc]
    exact ⟨rfl, rfl⟩
  · intro habs
    unfold validateQRToken lookupOutcome
    rw [habs]
    constructor
    · intro hnone
      cases hd : decrypt key tok with
      | none => simp [validateQRTokenWith, hd]
      | some plain =>
        rw [hd] at hnone
        simp only [Option.some_bind] at hnone
        simp [validateQRTokenWith, hd, hnone]
    · intro td htd
      cases hd : decrypt key tok with
      | none => rw [hd] at htd; simp at htd
      | some plain =>
        rw [hd] at htd
        simp only [Option.some_bind] at htd
        simp [validateQRTokenWith, hd, htd]

theorem c3_dual_path_witness :
    storeGet [("t", (⟨"t", ["r"], "u", 5000, 0, none, none⟩ : TokenDoc))] "t" =
        some (⟨"t", ["r"], "u", 5000, 0, none, none⟩ : TokenDoc) ∧
    (validateQRToken "k" [("t", (⟨"t", ["r"], "u", 5000, 0, none, none⟩ : TokenDoc))] 3 "t" =
        (if (5000 : Nat) < 3 then .invalid else .valid ["r"] 5000) ∧
      validateQRToken "k" [("t", (⟨"t", ["r"], "u", 5000, 0, none, none⟩ : TokenDoc))] 3 "t" =
        validateQRToken "k2" [("t", (⟨"t", ["r"], "u", 5000, 0, none, none⟩ : TokenDoc))] 3 "t") :=
  ⟨by decide,
    (c3_dual_path "k" "k2" [("t", (⟨"t", ["r"], "u", 5000, 0, none, none⟩ : TokenDoc))] 3 "t").1
      (⟨"t", ["r"], "u", 5000, 0, none, none⟩ : TokenDoc) (by decide)⟩

/-- C9: Implicit — if the store lookup itself throws during `validateQRToken`
(store unreachable rather than record absent), the function returns
`{valid:false}` without attempting the decrypt-fallback and without
propagating the error: even a fresh, genuinely issued token is rejected
under a lookup failure (indistinguishable from an invalid token), while the
same token validates on the fallback taken after a successful lookup that
finds no record. -/
theorem c9_store_outage (key userId tok2 : String) (ids : List String)
    (now0 iv expiresIn now : Nat)
    (hnow : now < now0 + expiresIn * 1000) :
    validateQRTokenWith key .failure now tok2 = .invalid ∧
    validateQRTokenWith key .failure now
        (generateQRToken key [] now0 iv ids expiresIn userId).1.1 = .invalid ∧
    validateQRTokenWith key .absent now
        (generateQRToken key [] now0 iv ids expiresIn userId).1.1 =
      .valid ids (now0 + expiresIn * 1000) := by
  refine ⟨rfl, rfl, ?_⟩
  rw [validateQRTokenWith_absent_issued, if_neg (by omega)]

theorem c9_store_outage_witness :
    5 < 0 + 60 * 1000 ∧
    (validateQRTokenWith "k" .failure 5 "whatever" = .invalid ∧
      validateQRTokenWith "k" .failure 5
        (generateQRToken "k" [] 0 7 ["r1"] 60 "u").1.1 = .invalid ∧
      validateQRTokenWith "k" .absent 5
        (generateQRToken "k" [] 0 7 ["r1"] 60 "u").1.1 = .valid ["r1"] (0 + 60 * 1000)) :=
  ⟨by decide, c9_store_outage "k" "u" "whatever" ["r1"] 0 7 60 5 (by decide)⟩

/-- C10: Implicit — `getReportsByQRToken` returns the found resources in
exactly the order their IDs appear in the token's `reportIds`, with no
de-duplication: the resolved list is the in-order `filterMap` of the
resolution step, and mapping each entry back to its `reportId` gives exactly
the subsequence of `reportIds` whose documents exist (so an ID listed twice
yields two identical entries). -/
theorem c10_order_and_duplicates (key userId : String) (ids : List String)
    (store : QrStore) (rs : ReportStore) (grant : String → Option String)
    (now0 iv expiresIn now : Nat) (hnow : now < now0 + expiresIn * 1000) :
    ∃ res, getReportsByQRToken key (generateQRToken key store now0 iv ids expiresIn userId).2
        rs grant now (generateQRToken key store now0 iv ids expiresIn userId).1.1 = .ok res ∧
      res.reports = ids.filterMap (resolveReport rs grant) ∧
      res.reports.map (fun v => v.reportId) = ids.filter (fun i => (reportGet rs i).isSome) := by
  exact ⟨_, getReports_issued key userId ids store rs grant now0 iv expiresIn now hnow, rfl,
    map_reportId_filterMap rs grant ids⟩

theorem c10_order_and_duplicates_witness :
    5 < 0 + 60 * 1000 ∧
    (∃ res, getReportsByQRToken "k"
        (generateQRToken "k" [] 0 7 ["a", "a"] 60 "u").2
        [("a", (⟨"u", none, none, none, none, none, none, none, none, none⟩ : ReportDoc))]
        (fun _ => none) 5
        (generateQRToken "k" [] 0 7 ["a", "a"] 60 "u").1.1 = .ok res ∧
      res.reports = (["a", "a"] : List String).filterMap
        (resolveReport
          [("a", (⟨"u", none, none, none, none, none, none, none, none, none⟩ : ReportDoc))]
          (fun _ => none)) ∧
      res.reports.map (fun v => v.reportId) =
        (["a", "a"] : List String).filter
          (fun i => (reportGet
            [("a", (⟨"u", none, none, none, none, none, none, none, none, none⟩ : ReportDoc))]
            i).isSome)) :=
  ⟨by decide, c10_order_and_duplicates "k" "u" ["a", "a"] []
    [("a", (⟨"u", none, none, none, none, none, none, none, none, none⟩ : ReportDoc))]
    (fun _ => none) 0 7 60 5 (by decide)⟩

/-- C6: Partial resolution — for a valid token whose `reportIds` reference a
set of resources of which some have been deleted from the document store,
`getReportsByQRToken` completes successfully and returns exactly the
still-existing resources (as many entries as IDs whose documents exist, each
entry's document existing); a missing resource never fails the request. -/
theorem c6_missing_skipped (key userId : String) (ids : List String)
    (store : QrStore) (rs : ReportStore) (grant : String → Option String)
    (now0 iv expiresIn now : Nat) (hnow : now < now0 + expiresIn * 1000) :
    ∃ res, getReportsByQRToken key (generateQRToken key store now0 iv ids expiresIn userId).2
        rs grant now (generateQRToken key store now0 iv ids expiresIn userId).1.1 = .ok res ∧
      res.reports.length = (ids.filter (fun i => (reportGet rs i).isSome)).length ∧
      (∀ v ∈ res.reports, (reportGet rs v.reportId).isSome = true) ∧
      res.expiresAt = now0 + expiresIn * 1000 := by
  refine ⟨_, getReports_issued key userId ids store rs grant now0 iv expiresIn now hnow,
    ?_, ?_, rfl⟩
  · have h := map_reportId_filterMap rs grant ids
    calc (ids.filterMap (resolveReport rs grant)).length
        = ((ids.filterMap (resolveReport rs grant)).map (fun v => v.reportId)).length := by
          rw [List.length_map]
      _ = (ids.filter (fun i => (reportGet rs i).isSome)).length := by rw [h]
  · intro v hv
    obtain ⟨i, _, hres⟩ := List.mem_filterMap.mp hv
    obtain ⟨hid, hsome⟩ := resolveReport_some rs grant i v hres
    rw [hid]
    exact hsome

theorem c6_missing_skipped_witness :
    5 < 0 + 60 * 1000 ∧
    ((["r1", "r2", "r3"] : List String).filter
        (fun i => (reportGet
          [("r1", (⟨"u", none, none, none, none, none, none, none, none, none⟩ : ReportDoc)),
           ("r2", (⟨"u", none, none, none, none, none, none, none, none, none⟩ : ReportDoc))]
          i).isSome)).length = 2 ∧
    (∃ res, getReportsByQRToken "k"
        (generateQRToken "k" [] 0 7 ["r1", "r2", "r3"] 60 "u").2
        [("r1", (⟨"u", none, none, none, none, none, none, none, none, none⟩ : ReportDoc)),
         ("r2", (⟨"u", none, none, none, none, none, none, none, none, none⟩ : ReportDoc))]
        (fun _ => none) 5
        (generateQRToken "k" [] 0 7 ["r1", "r2", "r3"] 60 "u").1.1 = .ok res ∧
      res.reports.length = ((["r1", "r2", "r3"] : List String).filter
        (fun i => (reportGet
          [("r1", (⟨"u", none, none, none, none, none, none, none, none, none⟩ : ReportDoc)),
           ("r2", (⟨"u", none, none, none, none, none, none, none, none, none⟩ : ReportDoc))]
          i).isSome)).length ∧
      (∀ v ∈ res.reports, (reportGet
        [("r1", (⟨"u", none, none, none, none, none, none, none, none, none⟩ : ReportDoc)),
         ("r2", (⟨"u", none, none, none, none, none, none, none, none, none⟩ : ReportDoc))]
        v.reportId).isSome = true) ∧
      res.expiresAt = 0 + 60 * 1000) :=
  ⟨by decide, by decide,
    c6_missing_skipped "k" "u" ["r1", "r2", "r3"] []
      [("r1", (⟨"u", none, none, none, none, none, none, none, none, none⟩ : ReportDoc)),
       ("r2", (⟨"u", none, none, none, none, none, none, none, none, none⟩ : ReportDoc))]
      (fun _ => none) 0 7 60 5 (by decide)⟩

/-- C7: Download-grant fault isolation — when every referenced document
exists and the grant generator fails (throws) for the `fileKey` of one
referenced resource, `getReportsByQRToken` still resolves every resource in
order (one entry per referenced ID), and each entry for the failed resource
carries the document's stored static locator `storageUrl` instead of a
signed URL. -/
theorem c7_grant_fault_isolation (key userId : String) (ids : List String)
    (store : QrStore) (rs : ReportStore) (grant : String → Option String)
    (now0 iv expiresIn now : Nat)
    (hall : ∀ i ∈ ids, (reportGet rs i).isSome = true)
    (b : String) (docb : ReportDoc) (hdocb : reportGet rs b = some docb)
    (fk : String) (hfk : docb.fileKey = some fk) (hgr : grant fk = none)
    (hnow : now < now0 + expiresIn * 1000) :
    ∃ res, getReportsByQRToken key (generateQRToken key store now0 iv ids expiresIn userId).2
        rs grant now (generateQRToken key store now0 iv ids expiresIn userId).1.1 = .ok res ∧
      res.reports.map (fun v => v.reportId) = ids ∧
      ∀ v ∈ res.reports, v.reportId = b → v.storageUrl = docb.storageUrl := by
  refine ⟨_, getReports_issued key userId ids store rs grant now0 iv expiresIn now hnow,
    ?_, ?_⟩
  · rw [map_reportId_filterMap]
    exact List.filter_eq_self.mpr hall
  · intro v hv hvb
    obtain ⟨i, _, hres⟩ := List.mem_filterMap.mp hv
    have hid := (resolveReport_some rs grant i v hres).1
    have hib : i = b := by rw [← hid, hvb]
    subst hib
    unfold resolveReport at hres
    rw [hdocb] at hres
    simp only [hfk] at hres
    by_cases hfke : fk = ""
    · simp only [hfke, if_pos rfl] at hres
      injection hres with hres
      rw [← hres]
      simp [jsOrString]
    · simp only [if_neg hfke, hgr] at hres
      injection hres with hres
      rw [← hres]
      simp [jsOrString]

theorem c7_grant_fault_isolation_witness :
    (∀ i ∈ (["r1", "r2"] : List String), (reportGet
      [("r1", (⟨"u", none, none, none, none, none, none, none, some "key1", some "s3://r1"⟩ : ReportDoc)),
       ("r2", (⟨"u", none, none, none, none, none, none, none, some "key2", some "s3://r2"⟩ : ReportDoc))]
      i).isSome = true) ∧
    reportGet
      [("r1", (⟨"u", none, none, none, none, none, none, none, some "key1", some "s3://r1"⟩ : ReportDoc)),
       ("r2", (⟨"u", none, none, none, none, none, none, none, some "key2", some "s3://r2"⟩ : ReportDoc))]
      "r1" = some (⟨"u", none, none, none, none, none, none, none, some "key1", some "s3://r1"⟩ : ReportDoc) ∧
    (∃ res, getReportsByQRToken "k"
        (generateQRToken "k" [] 0 7 ["r1", "r2"] 60 "u").2
        [("r1", (⟨"u", none, none, none, none, none, none, none, some "key1", some "s3://r1"⟩ : ReportDoc)),
         ("r2", (⟨"u", none, none, none, none, none, none, none, some "key2", some "s3://r2"⟩ : ReportDoc))]
        (fun fk => if fk = "key1" then none else some "https://signed") 5
        (generateQRToken "k" [] 0 7 ["r1", "r2"] 60 "u").1.1 = .ok res ∧
      res.reports.map (fun v => v.reportId) = ["r1", "r2"] ∧
      ∀ v ∈ res.reports, v.reportId = "r1" →
        v.storageUrl = (⟨"u", none, none, none, none, none, none, none, some "key1", some "s3://r1"⟩ : ReportDoc).storageUrl) :=
  ⟨by decide, by decide,
    c7_grant_fault_isolation "k" "u" ["r1", "r2"] []
      [("r1", (⟨"u", none, none, none, none, none, none, none, some "key1", some "s3://r1"⟩ : ReportDoc)),
       ("r2", (⟨"u", none, none, none, none, none, none, none, some "key2", some "s3://r2"⟩ : ReportDoc))]
      (fun fk => if fk = "key1" then none else some "https://signed") 0 7 60 5
      (by decide)
      "r1" (⟨"u", none, none, none, none, none, none, none, some "key1", some "s3://r1"⟩ : ReportDoc)
      (by decide) "key1" (by decide) (by decide) (by decide)⟩

/-- C8 (amended): Summary attach is best-effort and race-tolerant — whatever
happens to the summary generation and attach (generation failure, attach
failure, or success), the issuance caller still receives the issued
`{qrToken, expiresAt}`; `getReportsByQRToken` returns `aiSummary = none`
when no summary has been attached (in particular immediately after
issuance); and after a successful attach of a non-empty summary it returns
that summary.  (Attaching the empty string is reported as `null` because the
code reads `tokenData.aiSummary || null`.) -/
theorem c8_summary_best_effort (key userId : String) (ids : List String) (store : QrStore)
    (rs : ReportStore) (grant : String → Option String) (now0 iv expiresIn now : Nat)
    (outcome : SummaryOutcome) (hnow : now < now0 + expiresIn * 1000) :
    (qrGenerateRoute key store now0 iv ids expiresIn userId outcome).1.qrToken =
        (generateQRToken key store now0 iv ids expiresIn userId).1.1 ∧
    (qrGenerateRoute key store now0 iv ids expiresIn userId outcome).1.expiresAt =
        now0 + expiresIn * 1000 ∧
    (∃ res0, getReportsByQRToken key
        (generateQRToken key store now0 iv ids expiresIn userId).2
        rs grant now (generateQRToken key store now0 iv ids expiresIn userId).1.1 = .ok res0 ∧
      res0.aiSummary = none) ∧
    (∀ s t, s ≠ "" →
      ∃ res1, getReportsByQRToken key
          (attachSummary (generateQRToken key store now0 iv ids expiresIn userId).2
            (generateQRToken key store now0 iv ids expiresIn userId).1.1 s t)
          rs grant now (generateQRToken key store now0 iv ids expiresIn userId).1.1 = .ok res1 ∧
        res1.aiSummary = some s) := by
  refine ⟨?_, ?_,
    ⟨_, getReports_issued key userId ids store rs grant now0 iv expiresIn now hnow, rfl⟩, ?_⟩
  · cases outcome <;> rfl
  · cases outcome <;> rfl
  · intro s t hs
    refine ⟨_, getReports_attached key userId ids store rs grant now0 iv expiresIn now s t hnow, ?_⟩
    simp [hs]

theorem c8_summary_best_effort_witness :
    5 < 0 + 60 * 1000 ∧ ("note" : String) ≠ "" ∧
    ((qrGenerateRoute "k" [] 0 7 ["r1"] 60 "u" .genFailed).1.qrToken =
        (generateQRToken "k" [] 0 7 ["r1"] 60 "u").1.1 ∧
      (qrGenerateRoute "k" [] 0 7 ["r1"] 60 "u" .genFailed).1.expiresAt = 0 + 60 * 1000 ∧
      (∃ res0, getReportsByQRToken "k" (generateQRToken "k" [] 0 7 ["r1"] 60 "u").2
          [] (fun _ => none) 5 (generateQRToken "k" [] 0 7 ["r1"] 60 "u").1.1 = .ok res0 ∧
        res0.aiSummary = none) ∧
      (∀ s t, s ≠ "" →
        ∃ res1, getReportsByQRToken "k"
            (attachSummary (generateQRToken "k" [] 0 7 ["r1"] 60 "u").2
              (generateQRToken "k" [] 0 7 ["r1"] 60 "u").1.1 s t)
            [] (fun _ => none) 5 (generateQRToken "k" [] 0 7 ["r1"] 60 "u").1.1 = .ok res1 ∧
          res1.aiSummary = some s)) :=
  ⟨by decide, by decide,
    c8_summary_best_effort "k" "u" ["r1"] [] [] (fun _ => none) 0 7 60 5 .genFailed (by decide)⟩

/-- C8 (counterexample): attaching the empty-string summary is a successful
attach (the store record then carries `aiSummary = some ""`), yet
`getReportsByQRToken` returns `aiSummary = none`, not the attached value:
the `tokenData.aiSummary || null` read coerces the empty string to `null`.
Token issued with key "k", IV 5, ids ["r1"], TTL 60 s at time 0; resolution
at time 1 against an empty reports collection. -/
theorem c8_counterexample :
    (storeGet
        (attachSummary (generateQRToken "k" [] 0 5 ["r1"] 60 "u").2
          (generateQRToken "k" [] 0 5 ["r1"] 60 "u").1.1 "" 0)
        (generateQRToken "k" [] 0 5 ["r1"] 60 "u").1.1).map (fun d => d.aiSummary) =
      some (some "") ∧
    getReportsByQRToken "k"
        (attachSummary (generateQRToken "k" [] 0 5 ["r1"] 60 "u").2
          (generateQRToken "k" [] 0 5 ["r1"] 60 "u").1.1 "" 0)
        [] (fun _ => none) 1
        (generateQRToken "k" [] 0 5 ["r1"] 60 "u").1.1 =
      .ok ⟨[], 60000, none⟩ := by
  constructor
  · rw [storeGet_attachSummary]
    rw [show (generateQRToken "k" [] 0 5 ["r1"] 60 "u").2 =
      storeSet [] (generateQRToken "k" [] 0 5 ["r1"] 60 "u").1.1
        ⟨(generateQRToken "k" [] 0 5 ["r1"] 60 "u").1.1, ["r1"], "u", 60000, 0, none, none⟩
      from rfl]
    rw [storeGet_storeSet]
    rfl
  · rw [getReports_attached "k" "u" ["r1"] [] [] (fun _ => none) 0 5 60 1 "" 0 (by omega)]
    rfl

theorem validate_tag_altered (key userId : String) (ids : List String)
    (now0 iv expiresIn now : Nat) (j : Nat) (c : Char) (store3 : QrStore)
    (hj : j < (issuedTagSeg key iv ⟨ids, userId, now0 + expiresIn * 1000, now0⟩).length)
    (hc : c ≠ (issuedTagSeg key iv ⟨ids, userId, now0 + expiresIn * 1000, now0⟩).get ⟨j, hj⟩)
    (hstore : storeGet store3 ⟨issuedIvSeg iv ++ (':' ::
        ((issuedTagSeg key iv ⟨ids, userId, now0 + expiresIn * 1000, now0⟩).set j c ++
          (':' :: issuedCtSeg ⟨ids, userId, now0 + expiresIn * 1000, now0⟩)))⟩ = none) :
    validateQRToken key store3 now
      ⟨issuedIvSeg iv ++ (':' ::
        ((issuedTagSeg key iv ⟨ids, userId, now0 + expiresIn * 1000, now0⟩).set j c ++
          (':' :: issuedCtSeg ⟨ids, userId, now0 + expiresIn * 1000, now0⟩)))⟩ = .invalid := by
  unfold validateQRToken lookupOutcome
  rw [hstore]
  have hc' : c ≠ (tagList key.data (natDec iv)
      (stringEncList (jsonStringify ⟨ids, userId, now0 + expiresIn * 1000, now0⟩).data))[j] := by
    have hget : (issuedTagSeg key iv ⟨ids, userId, now0 + expiresIn * 1000, now0⟩).get ⟨j, hj⟩ =
        (tagList key.data (natDec iv)
          (stringEncList (jsonStringify ⟨ids, userId, now0 + expiresIn * 1000, now0⟩).data))[j] :=
      List.get_eq_getElem _ _
    rw [hget] at hc
    exact hc
  have hd : decrypt key
      ⟨issuedIvSeg iv ++ (':' ::
        ((issuedTagSeg key iv ⟨ids, userId, now0 + expiresIn * 1000, now0⟩).set j c ++
          (':' :: issuedCtSeg ⟨ids, userId, now0 + expiresIn * 1000, now0⟩)))⟩ = none := by
    show (decryptList key.data
      (natDec iv ++ (':' ::
        ((tagList key.data (natDec iv)
            (stringEncList (jsonStringify ⟨ids, userId, now0 + expiresIn * 1000, now0⟩).data)).set j c ++
          (':' :: stringEncList (jsonStringify ⟨ids, userId, now0 + expiresIn * 1000, now0⟩).data))))).map
        (fun l => (⟨l⟩ : String)) = none
    rw [decryptList_tag_altered key.data iv
      (jsonStringify ⟨ids, userId, now0 + expiresIn * 1000, now0⟩).data j c hj hc']
    rfl
  simp [validateQRTokenWith, hd]

theorem validate_ct_altered (key userId : String) (ids : List String)
    (now0 iv expiresIn now : Nat) (j : Nat) (c : Char) (store3 : QrStore)
    (hj : j < (issuedCtSeg ⟨ids, userId, now0 + expiresIn * 1000, now0⟩).length)
    (hc : c ≠ (issuedCtSeg ⟨ids, userId, now0 + expiresIn * 1000, now0⟩).get ⟨j, hj⟩)
    (hstore : storeGet store3 ⟨issuedIvSeg iv ++ (':' ::
        (issuedTagSeg key iv ⟨ids, userId, now0 + expiresIn * 1000, now0⟩ ++
          (':' :: (issuedCtSeg ⟨ids, userId, now0 + expiresIn * 1000, now0⟩).set j c)))⟩ = none) :
    validateQRToken key store3 now
      ⟨issuedIvSeg iv ++ (':' ::
        (issuedTagSeg key iv ⟨ids, userId, now0 + expiresIn * 1000, now0⟩ ++
          (':' :: (issuedCtSeg ⟨ids, userId, now0 + expiresIn * 1000, now0⟩).set j c)))⟩ =
      .invalid := by
  unfold validateQRToken lookupOutcome
  rw [hstore]
  have hc' : c ≠ (stringEncList
      (jsonStringify ⟨ids, userId, now0 + expiresIn * 1000, now0⟩).data)[j] := by
    have hget : (issuedCtSeg ⟨ids, userId, now0 + expiresIn * 1000, now0⟩).get ⟨j, hj⟩ =
        (stringEncList (jsonStringify ⟨ids, userId, now0 + expiresIn * 1000, now0⟩).data)[j] :=
      List.get_eq_getElem _ _
    rw [hget] at hc
    exact hc
  have hd : decrypt key
      ⟨issuedIvSeg iv ++ (':' ::
        (issuedTagSeg key iv ⟨ids, userId, now0 + expiresIn * 1000, now0⟩ ++
          (':' :: (issuedCtSeg ⟨ids, userId, now0 + expiresIn * 1000, now0⟩).set j c)))⟩ = none := by
    show (decryptList key.data
      (natDec iv ++ (':' ::
        (tagList key.data (natDec iv)
            (stringEncList (jsonStringify ⟨ids, userId, now0 + expiresIn * 1000, now0⟩).data) ++
          (':' :: (stringEncList (jsonStringify ⟨ids, userId, now0 + expiresIn * 1000, now0⟩).data).set j c))))).map
        (fun l => (⟨l⟩ : String)) = none
    rw [decryptList_ct_altered key.data iv
      (jsonStringify ⟨ids, userId, now0 + expiresIn * 1000, now0⟩).data j c hj hc']
    rfl
  simp [validateQRTokenWith, hd]

/-- C4: Tamper rejection — the issued wire token splits into the IV, tag and
ciphertext segments, and altering any single character of the tag segment or
of the ciphertext segment (to any different character) makes `validateQRToken`
return `{valid:false}` whenever the altered string has no record of its own
in the store: decryption authenticates and rejects, so no valid result with
a different payload is ever produced. -/
theorem c4_tamper_rejection (key userId : String) (ids : List String) (store2 : QrStore)
    (now0 iv expiresIn now : Nat) (j : Nat) (c : Char) :
    ((generateQRToken key store2 now0 iv ids expiresIn userId).1.1).data =
      issuedIvSeg iv ++ (':' ::
        (issuedTagSeg key iv ⟨ids, userId, now0 + expiresIn * 1000, now0⟩ ++
          (':' :: issuedCtSeg ⟨ids, userId, now0 + expiresIn * 1000, now0⟩))) ∧
    (∀ hj : j < (issuedTagSeg key iv ⟨ids, userId, now0 + expiresIn * 1000, now0⟩).length,
      c ≠ (issuedTagSeg key iv ⟨ids, userId, now0 + expiresIn * 1000, now0⟩).get ⟨j, hj⟩ →
      ∀ store3 : QrStore,
        storeGet store3 ⟨issuedIvSeg iv ++ (':' ::
            ((issuedTagSeg key iv ⟨ids, userId, now0 + expiresIn * 1000, now0⟩).set j c ++
              (':' :: issuedCtSeg ⟨ids, userId, now0 + expiresIn * 1000, now0⟩)))⟩ = none →
        validateQRToken key store3 now
          ⟨issuedIvSeg iv ++ (':' ::
            ((issuedTagSeg key iv ⟨ids, userId, now0 + expiresIn * 1000, now0⟩).set j c ++
              (':' :: issuedCtSeg ⟨ids, userId, now0 + expiresIn * 1000, now0⟩)))⟩ = .invalid) ∧
    (∀ hj : j < (issuedCtSeg ⟨ids, userId, now0 + expiresIn * 1000, now0⟩).length,
      c ≠ (issuedCtSeg ⟨ids, userId, now0 + expiresIn * 1000, now0⟩).get ⟨j, hj⟩ →
      ∀ store3 : QrStore,
        storeGet store3 ⟨issuedIvSeg iv ++ (':' ::
            (issuedTagSeg key iv ⟨ids, userId, now0 + expiresIn * 1000, now0⟩ ++
              (':' :: (issuedCtSeg ⟨ids, userId, now0 + expiresIn * 1000, now0⟩).set j c)))⟩ = none →
        validateQRToken key store3 now
          ⟨issuedIvSeg iv ++ (':' ::
            (issuedTagSeg key iv ⟨ids, userId, now0 + expiresIn * 1000, now0⟩ ++
              (':' :: (issuedCtSeg ⟨ids, userId, now0 + expiresIn * 1000, now0⟩).set j c)))⟩ =
          .invalid) := by
  refine ⟨rfl, ?_, ?_⟩
  · intro hj hc store3 hstore
    exact validate_tag_altered key userId ids now0 iv expiresIn now j c store3 hj hc hstore
  · intro hj hc store3 hstore
    exact validate_ct_altered key userId ids now0 iv expiresIn now j c store3 hj hc hstore

theorem c4_tamper_rejection_witness :
    ((generateQRToken "k" [] 0 7 ["r1"] 60 "u").1.1).data =
      issuedIvSeg 7 ++ (':' ::
        (issuedTagSeg "k" 7 ⟨["r1"], "u", 0 + 60 * 1000, 0⟩ ++
          (':' :: issuedCtSeg ⟨["r1"], "u", 0 + 60 * 1000, 0⟩))) ∧
    validateQRToken "k" [] 3
      ⟨issuedIvSeg 7 ++ (':' ::
        ((issuedTagSeg "k" 7 ⟨["r1"], "u", 0 + 60 * 1000, 0⟩).set 0 'x' ++
          (':' :: issuedCtSeg ⟨["r1"], "u", 0 + 60 * 1000, 0⟩)))⟩ = .invalid ∧
    validateQRToken "k" [] 3
      ⟨issuedIvSeg 7 ++ (':' ::
        (issuedTagSeg "k" 7 ⟨["r1"], "u", 0 + 60 * 1000, 0⟩ ++
          (':' :: (issuedCtSeg ⟨["r1"], "u", 0 + 60 * 1000, 0⟩).set 0 'x')))⟩ = .invalid := by
  have h := c4_tamper_rejection "k" "u" ["r1"] [] 0 7 60 3 0 'x'
  exact ⟨h.1, h.2.1 (by decide) (by decide) [] rfl, h.2.2 (by decide) (by decide) [] rfl⟩

/-- C5: Indistinguishability of rejections — a syntactically malformed
string, an expired issued token, and a tampered issued token (none of them
having a store record) all produce the very same `{valid:false}` result from
`validateQRToken`: the invalid result carries no field distinguishing the
failure mode, and none of these expected failures escapes as an exception
(the function is total). -/
theorem c5_indistinguishability (key userId mal : String) (ids : List String)
    (store : QrStore) (now0 iv expiresIn now : Nat) (j : Nat) (c : Char)
    (hmal : (splitColonList mal.data).length ≠ 3)
    (hmalget : storeGet store mal = none)
    (hexp : now0 + expiresIn * 1000 < now)
    (hexpget : storeGet store (generateQRToken key store now0 iv ids expiresIn userId).1.1 = none)
    (hj : j < (issuedTagSeg key iv ⟨ids, userId, now0 + expiresIn * 1000, now0⟩).length)
    (hc : c ≠ (issuedTagSeg key iv ⟨ids, userId, now0 + expiresIn * 1000, now0⟩).get ⟨j, hj⟩)
    (htamget : storeGet store ⟨issuedIvSeg iv ++ (':' ::
        ((issuedTagSeg key iv ⟨ids, userId, now0 + expiresIn * 1000, now0⟩).set j c ++
          (':' :: issuedCtSeg ⟨ids, userId, now0 + expiresIn * 1000, now0⟩)))⟩ = none) :
    validateQRToken key store now mal = .invalid ∧
    validateQRToken key store now (generateQRToken key store now0 iv ids expiresIn userId).1.1 =
      validateQRToken key store now mal ∧
    validateQRToken key store now
        ⟨issuedIvSeg iv ++ (':' ::
          ((issuedTagSeg key iv ⟨ids, userId, now0 + expiresIn * 1000, now0⟩).set j c ++
            (':' :: issuedCtSeg ⟨ids, userId, now0 + expiresIn * 1000, now0⟩)))⟩ =
      validateQRToken key store now mal := by
  have hmalres : validateQRToken key store now mal = .invalid := by
    unfold validateQRToken lookupOutcome
    rw [hmalget]
    have hd : decrypt key mal = none := by
      unfold decrypt
      rw [decryptList_not_three key.data mal.data hmal]
      rfl
    simp [validateQRTokenWith, hd]
  have hexpres : validateQRToken key store now
      (generateQRToken key store now0 iv ids expiresIn userId).1.1 = .invalid := by
    unfold validateQRToken lookupOutcome
    rw [hexpget]
    rw [validateQRTokenWith_absent_issued, if_pos (by omega)]
  have htamres : validateQRToken key store now
      ⟨issuedIvSeg iv ++ (':' ::
        ((issuedTagSeg key iv ⟨ids, userId, now0 + expiresIn * 1000, now0⟩).set j c ++
          (':' :: issuedCtSeg ⟨ids, userId, now0 + expiresIn * 1000, now0⟩)))⟩ = .invalid :=
    validate_tag_altered key userId ids now0 iv expiresIn now j c store hj hc htamget
  exact ⟨hmalres, by rw [hexpres, hmalres], by rw [htamres, hmalres]⟩

theorem c5_indistinguishability_witness :
    (splitColonList ("abc" : String).data).length ≠ 3 ∧
    0 + 60 * 1000 < 60001 ∧
    (validateQRToken "k" [] 60001 "abc" = .invalid ∧
      validateQRToken "k" [] 60001 (generateQRToken "k" [] 0 7 ["r1"] 60 "u").1.1 =
        validateQRToken "k" [] 60001 "abc" ∧
      validateQRToken "k" [] 60001
          ⟨issuedIvSeg 7 ++ (':' ::
            ((issuedTagSeg "k" 7 ⟨["r1"], "u", 0 + 60 * 1000, 0⟩).set 0 'x' ++
              (':' :: issuedCtSeg ⟨["r1"], "u", 0 + 60 * 1000, 0⟩)))⟩ =
        validateQRToken "k" [] 60001 "abc") :=
  ⟨by decide, by decide,
    c5_indistinguishability "k" "u" "abc" ["r1"] [] 0 7 60 60001 0 'x'
      (by decide) rfl (by decide) rfl (by decide) (by decide) rfl⟩

end HC
